import Mathlib

/-!
# Verification of the tx-relay-playground transaction relay

Shallow embedding of the relay engine (`src/bin/tx-relay-server.rs`) and
the transaction validator (`src/validation.rs`).  Pure logic is translated
directly from the Rust source; external effects (Bitcoin RPC calls, the
`bitcoin` crate's consensus deserializer, the double-SHA256 txid) are
passed in as oracle parameters so that every code path of the source is
represented explicitly.
-/

namespace TxRelay

/-! ## String helpers mirroring the Rust standard library / `hex` crate -/

/-- Value of a single hexadecimal digit, as accepted by `hex::decode`
(`0-9`, `a-f`, `A-F`). -/
def hexDigitVal (c : Char) : Option Nat :=
  if '0' ≤ c ∧ c ≤ '9' then some (c.toNat - '0'.toNat)
  else if 'a' ≤ c ∧ c ≤ 'f' then some (c.toNat - 'a'.toNat + 10)
  else if 'A' ≤ c ∧ c ≤ 'F' then some (c.toNat - 'A'.toNat + 10)
  else none

/-- Model of `hex::decode` over a character list: fails on an odd number of digits
or on a non-hex character, otherwise yields the byte list. -/
def hexDecodeList : List Char → Option (List Nat)
  | [] => some []
  | [_] => none
  | c₁ :: c₂ :: rest =>
    match hexDigitVal c₁, hexDigitVal c₂, hexDecodeList rest with
    | some hi, some lo, some tail => some ((hi * 16 + lo) :: tail)
    | _, _, _ => none

/-- Model of `hex::decode` on a string. -/
def hexDecode (s : String) : Option (List Nat) :=
  hexDecodeList s.toList

/-- Rust's `char::is_ascii_hexdigit`. -/
def is_ascii_hexdigit (c : Char) : Bool :=
  (decide ('0' ≤ c ∧ c ≤ '9')) || (decide ('a' ≤ c ∧ c ≤ 'f'))
    || (decide ('A' ≤ c ∧ c ≤ 'F'))

/-- Rust's `str::len`: the number of UTF-8 bytes. -/
def rustStrLen (s : String) : Nat := s.utf8ByteSize

/-- Rust's `"...".parse::<u16>()`: an optional leading `+`, then one or
more ASCII digits, with the value below `2^16`; anything else fails. -/
def parseU16 (s : String) : Option Nat :=
  let digits := match s.toList with
    | '+' :: rest => rest
    | cs => cs
  if digits.isEmpty then none
  else if !digits.all Char.isDigit then none
  else
    let v := digits.foldl (fun a c => a * 10 + (c.toNat - '0'.toNat)) 0
    if v < 65536 then some v else none

/-! ## Validator (`src/validation.rs`) -/

/-- Mirror of `ValidationError` from `src/validation.rs` (the two transport error
variants `RpcError`/`JsonError` are collapsed into `RpcError`, since the
claims only distinguish them from the validation errors). -/
inductive ValidationError where
  | EmptyTransaction
  | InvalidHex
  | InvalidSize (bytes : Nat)
  | InvalidStructure
  | RecentlyProcessed (txid : String)
  | BitcoinCoreRejection (reason : String)
  | RpcError
  deriving DecidableEq, Repr

/-- Mirror of `ValidationConfig` from `src/validation.rs`. -/
structure ValidationConfig where
  enable_validation : Bool
  enable_precheck : Bool
  validation_timeout_ms : Nat
  cache_ttl_seconds : Nat
  cache_size : Nat
  deriving DecidableEq, Repr

/-- Mirror of `ValidationConfig::default()`. -/
def ValidationConfig.default : ValidationConfig :=
  { enable_validation := true
    enable_precheck := true
    validation_timeout_ms := 5000
    cache_ttl_seconds := 600
    cache_size := 1000 }

/-- The capacity of the validator's LRU cache:
`NonZeroUsize::new(config.cache_size).unwrap_or(1000)`. -/
def cacheCapacity (cfg : ValidationConfig) : Nat :=
  if cfg.cache_size = 0 then 1000 else cfg.cache_size

/-- The `LruCache<String, Instant>` is modelled as an association list in
most-recently-used-first order; `Instant` is a `Nat` timestamp in
seconds. -/
abbrev TxCache := List (String × Nat)

/-- Mirror of `quick_validation_checks` from `src/validation.rs`. -/
def quick_validation_checks (tx_hex : String) :
    Except ValidationError Unit :=
  if rustStrLen tx_hex = 0 then .error .EmptyTransaction
  else if !tx_hex.toList.all is_ascii_hexdigit then .error .InvalidHex
  else if rustStrLen tx_hex / 2 < 60 ∨ rustStrLen tx_hex / 2 > 400000 then
    .error (.InvalidSize (rustStrLen tx_hex / 2))
  else .ok ()

/-- Mirror of `extract_txid` from `src/validation.rs`: `hex::decode` then
`consensus::deserialize::<Transaction>` then `tx.txid()`.  The
deserializer-plus-txid composite is the oracle `deserTxid` (it lives in
the `bitcoin` crate, outside this repository). -/
def extract_txid (deserTxid : List Nat → Option String) (tx_hex : String) :
    Except ValidationError String :=
  match hexDecode tx_hex with
  | none => .error .InvalidHex
  | some tx_bytes =>
    match deserTxid tx_bytes with
    | none => .error .InvalidStructure
    | some txid => .ok txid

/-- Mirror of `is_recently_processed` from `src/validation.rs`: a `peek` into the
LRU cache followed by an elapsed-time test against the TTL. -/
def is_recently_processed (cfg : ValidationConfig) (cache : TxCache)
    (now : Nat) (txid : String) : Bool :=
  match cache.find? (fun e => e.1 = txid) with
  | some e => now - e.2 < cfg.cache_ttl_seconds
  | none => false

/-- Mirror of `cache_transaction` from `src/validation.rs`: `LruCache::put` inserts
the entry at the most-recent position (replacing an existing entry for
the same key) and evicts the least recently used entry beyond the
capacity. -/
def cache_transaction (cfg : ValidationConfig) (cache : TxCache)
    (now : Nat) (txid : String) : TxCache :=
  ((txid, now) :: cache.filter (fun e => e.1 ≠ txid)).take (cacheCapacity cfg)

/-- Outcome of the `testmempoolaccept` RPC in `validate_with_bitcoin_core`
(an oracle: the RPC is external).  `allowed` is the `"allowed": true`
result; `rejectedCore r` covers every rejection shape (RPC error object,
bad response format, `allowed` false), all of which the source maps to
`BitcoinCoreRejection`; `rpcFail` is a transport failure
(`RpcError`/`JsonError`). -/
inductive CoreOutcome where
  | allowed
  | rejectedCore (reason : String)
  | rpcFail
  deriving DecidableEq, Repr

/-- Result of one `validate` call: the returned `Result`, the cache after
the call, and whether a `testmempoolaccept` RPC was issued. -/
structure ValidateResult where
  result : Except ValidationError Unit
  cache : TxCache
  calledCore : Bool
  deriving Repr

/-- Mirror of `validate` from `src/validation.rs`, with the external deserializer
and the `testmempoolaccept` RPC as oracles and the cache threaded
explicitly. -/
def validate (cfg : ValidationConfig) (deserTxid : List Nat → Option String)
    (core : String → CoreOutcome) (cache : TxCache) (now : Nat)
    (tx_hex : String) : ValidateResult :=
  if !cfg.enable_validation then ⟨.ok (), cache, false⟩
  else
    match extract_txid deserTxid tx_hex with
    | .error e => ⟨.error e, cache, false⟩
    | .ok txid =>
      if is_recently_processed cfg cache now txid then
        ⟨.error (.RecentlyProcessed txid), cache, false⟩
      else
        match (if cfg.enable_precheck then quick_validation_checks tx_hex
               else .ok ()) with
        | .error e => ⟨.error e, cache, false⟩
        | .ok _ =>
          match core tx_hex with
          | .rpcFail => ⟨.error .RpcError, cache, true⟩
          | .rejectedCore r => ⟨.error (.BitcoinCoreRejection r), cache, true⟩
          | .allowed => ⟨.ok (), cache_transaction cfg cache now txid, true⟩

/-! ## Relay server (`src/bin/tx-relay-server.rs`) -/

/-- Event kind constants from the source. -/
def KIND_SUBMIT_TX : Nat := 20010

def KIND_TX_RESPONSE : Nat := 20011

def KIND_TX_BROADCAST : Nat := 20012

/-- Rust's `str::contains(pat)`: substring containment. -/
def containsSubstring (hay pat : String) : Bool :=
  go hay.toList pat.toList
where
  go : List Char → List Char → Bool
    | [], p => p.isEmpty
    | l@(_ :: t), p => p.isPrefixOf l || go t p

/-- Outcome of fetching and decoding the raw transaction of a newly seen
mempool txid inside `monitor_mempool` (both steps are external to the
tick's logic: a `getrawtransaction` RPC, then `hex::decode` and the
`bitcoin` crate's consensus deserializer). -/
inductive RawFetch where
  /-- `get_raw_transaction` returned `Err`: the txid is skipped. -/
  | rpcErr
  /-- `hex::decode(&raw_tx)` failed: the `?` aborts `monitor_mempool`. -/
  | badHex
  /-- consensus deserialization failed: the txid is skipped. -/
  | badTx
  /-- decoded successfully: `broadcast_transaction` is invoked. -/
  | okTx
  deriving DecidableEq, Repr

/-- One iteration of the `for txid in &current_txids` loop of
`monitor_mempool`: the state is `(known_txids, published)` where
`published` records the txids for which a kind-20012 broadcast event was
produced this tick, in order. -/
def tickStep (fetch : String → RawFetch) (R : List String)
    (st : List String × List String) (txid : String) :
    Except Unit (List String × List String) :=
  let (known, pubs) := st
  if txid ∈ known then .ok (known, pubs)
  else if txid ∈ R then .ok (txid :: known, pubs)
  else
    match fetch txid with
    | .rpcErr => .ok (txid :: known, pubs)
    | .badHex => .error ()
    | .badTx => .ok (txid :: known, pubs)
    | .okTx => .ok (txid :: known, pubs ++ [txid])

/-- The `Ok(current_txids)` arm of a `monitor_mempool` poll: the loop
over the snapshot, then
`known_txids.retain(|txid| current_txids.contains(txid))`. -/
def monitorTickSnapshot (fetch : String → RawFetch) (R : List String)
    (known current : List String) :
    Except Unit (List String × List String) :=
  match current.foldlM (tickStep fetch R) (known, []) with
  | .error e => .error e
  | .ok (known', pubs) =>
    .ok (known'.filter (fun t => decide (t ∈ current)), pubs)

/-- One poll tick of `monitor_mempool`: `pollResult = none` is a failed
`getrawmempool` (the `Err` arm only logs), `some current` is a
successful one.  Returns the new `known_txids` and the txids broadcast
this tick. -/
def monitorTick (fetch : String → RawFetch) (R : List String)
    (known : List String) (pollResult : Option (List String)) :
    Except Unit (List String × List String) :=
  match pollResult with
  | none => .ok (known, [])
  | some current => monitorTickSnapshot fetch R known current

/-- A Nostr tag as `handle_remote_transaction` sees it: the handler only
inspects `Tag::Generic(kind, values)` with a custom kind string; every
other tag shape is `other`. -/
inductive RTag where
  | generic (kind : String) (values : List String)
  | other
  deriving DecidableEq, Repr

/-- The event content as inspected by `handle_remote_transaction`:
`serde_json::from_str` either fails (`malformed`, the `?` propagates) or
yields a JSON value whose `"hex"` and `"txid"` string fields are the only
parts read. -/
inductive ContentParse where
  | malformed
  | fields (hexField : Option String) (txidField : Option String)
  deriving DecidableEq, Repr

/-- An inbound kind-20012 event, reduced to the parts the handler reads. -/
structure RemoteEvent where
  tags : List RTag
  content : ContentParse
  deriving Repr

/-- Outcome of `submit_to_bitcoin_node` (an external RPC): `ok` carries
the txid from the response, `err` the error's display string. -/
inductive SubmitOutcome where
  | ok (txid : String)
  | err (msg : String)
  deriving DecidableEq, Repr

/-- Observable side effects of the Nostr ingress handler, in program
order. -/
inductive ServerEffect where
  /-- `remote_transactions.insert(txid)`. -/
  | markRemote (txid : String)
  /-- `submit_to_bitcoin_node(tx_hex)` issued. -/
  | submit (tx_hex : String)
  /-- the `warn!` arm for a submission failure not classified as
  already-present. -/
  | warnSubmitFailed (txid : String) (msg : String)
  deriving DecidableEq, Repr

/-- The self-origin test of the tag loop in `handle_remote_transaction`:
a `Generic` tag with custom kind `"relay_id"`, a non-empty value list,
and a first value that parses as a `u16` equal to `self.relay_id`. -/
def is_self_relay_tag (relay_id : Nat) : RTag → Bool
  | .generic kind (v :: _) =>
    if kind = "relay_id" then
      match parseU16 v with
      | some sender => decide (sender = relay_id)
      | none => false
    else false
  | _ => false

/-- The already-present classification of a submission error in
`handle_remote_transaction`:
`e.to_string().contains("already in mempool") || e.to_string().contains("already exists")`. -/
def isAlreadyPresentError (msg : String) : Bool :=
  containsSubstring msg "already in mempool"
    || containsSubstring msg "already exists"

/-- The effects that follow the submission inside
`handle_remote_transaction`: the `Ok` arm and the already-present `Err`
arm only log at info level; any other `Err` hits the `warn!` arm. -/
def postSubmitEffects (outcome : SubmitOutcome) (txid : String) :
    List ServerEffect :=
  match outcome with
  | .ok _ => []
  | .err m =>
    if isAlreadyPresentError m then [] else [.warnSubmitFailed txid m]

/-- Mirror of `handle_remote_transaction` from `src/bin/tx-relay-server.rs`,
returning the remote-origin set `R` after the call and the ordered side
effects; `.error ()` is the early `?` return on malformed JSON content. -/
def handle_remote_transaction (relay_id : Nat)
    (submit : String → SubmitOutcome) (R : List String) (e : RemoteEvent) :
    Except Unit (List String × List ServerEffect) :=
  if e.tags.any (is_self_relay_tag relay_id) then .ok (R, [])
  else
    match e.content with
    | .malformed => .error ()
    | .fields hexField txidField =>
      match hexField, txidField with
      | some tx_hex, some txid =>
        .ok (txid :: R,
          ServerEffect.markRemote txid :: ServerEffect.submit tx_hex ::
            postSubmitEffects (submit tx_hex) txid)
      | _, _ => .ok (R, [])

/-- Observable outputs of the client-submission path: a kind-20011
response to the submitting client, or a kind-20012 broadcast event. -/
inductive ClientEffect where
  | response (success : Bool) (message : String) (txid : String)
  | broadcast (txid : String)
  deriving DecidableEq, Repr

/-- Mirror of `handle_submit_tx` from `src/bin/tx-relay-server.rs`: trims the event
content, checks the hex shape, decodes, deserializes (oracle `deserTxid`,
combining the `bitcoin` crate's deserializer with `tx.txid()`), submits,
and answers the client; the returned list is every event this path
produces. -/
def handle_submit_tx (submit : String → SubmitOutcome)
    (deserTxid : List Nat → Option String) (content : String) :
    List ClientEffect :=
  let tx_hex := content.trim
  if rustStrLen tx_hex = 0 ∨ rustStrLen tx_hex % 2 ≠ 0 then
    [.response false "Invalid transaction hex format" ""]
  else
    match hexDecode tx_hex with
    | none => [.response false "Invalid hex encoding" ""]
    | some tx_bytes =>
      match deserTxid tx_bytes with
      | none => [.response false "Invalid transaction format" ""]
      | some txid =>
        match submit tx_hex with
        | .ok _ => [.response true "Transaction accepted" txid]
        | .err m => [.response false m txid]

/-- The subscription filter sent in `try_connect_to_strfry`. -/
structure StrfryFilter where
  kinds : List Nat
  hashtags : List String
  since : Nat
  deriving DecidableEq, Repr

/-- Filter building in `try_connect_to_strfry`: the REQ filter is built from
`SystemTime::now()` sampled inside the function body, i.e. at the moment
this connection attempt runs. -/
def try_connect_subscription (now : Nat) : StrfryFilter :=
  { kinds := [KIND_TX_BROADCAST]
    hashtags := ["bitcoin", "transaction"]
    since := now }

/-- The reconnect loop of `connect_to_strfry` calls
`try_connect_to_strfry` once per attempt; given the wall-clock times of
the successive attempts, these are the filters it sends. -/
def reconnect_filters (attemptTimes : List Nat) : List StrfryFilter :=
  attemptTimes.map try_connect_subscription

/-! ## Theorems -/

theorem exceptOkBind {e a b : Type} (x : a) (f : a → Except e b) :
    (Except.ok x >>= f) = f x := rfl

theorem tickStep_char (fetch : String → RawFetch) (R : List String) :
    ∀ (current : List String) (known pubs known2 pubs2 : List String),
    current.foldlM (tickStep fetch R) (known, pubs) = Except.ok (known2, pubs2) →
    ∀ t : String, t ∈ pubs2 ↔
      t ∈ pubs ∨ (t ∈ current ∧ t ∉ known ∧ t ∉ R ∧ fetch t = .okTx) := by
  intro current
  induction current with
  | nil =>
    intro known pubs known2 pubs2 h t
    simp only [List.foldlM_nil] at h
    cases h
    simp
  | cons hd tl ih =>
    intro known pubs known2 pubs2 h t
    simp only [List.foldlM_cons] at h
    by_cases hk : hd ∈ known
    · rw [show tickStep fetch R (known, pubs) hd = Except.ok (known, pubs) by
        simp [tickStep, hk]] at h
      rw [exceptOkBind] at h
      rw [ih _ _ _ _ h t]
      constructor
      · rintro (hp | ⟨htl, hnk, hnR, hf⟩)
        · exact Or.inl hp
        · exact Or.inr ⟨List.mem_cons_of_mem _ htl, hnk, hnR, hf⟩
      · rintro (hp | ⟨hc, hnk, hnR, hf⟩)
        · exact Or.inl hp
        · rcases List.mem_cons.mp hc with rfl | htl
          · exact absurd hk hnk
          · exact Or.inr ⟨htl, hnk, hnR, hf⟩
    · by_cases hr : hd ∈ R
      · rw [show tickStep fetch R (known, pubs) hd = Except.ok (hd :: known, pubs) by
          simp [tickStep, hk, hr]] at h
        rw [exceptOkBind] at h
        rw [ih _ _ _ _ h t]
        constructor
        · rintro (hp | ⟨htl, hnk, hnR, hf⟩)
          · exact Or.inl hp
          · exact Or.inr ⟨List.mem_cons_of_mem _ htl,
              fun hm => hnk (List.mem_cons_of_mem _ hm), hnR, hf⟩
        · rintro (hp | ⟨hc, hnk, hnR, hf⟩)
          · exact Or.inl hp
          · rcases List.mem_cons.mp hc with rfl | htl
            · exact absurd hr hnR
            · refine Or.inr ⟨htl, fun hm => ?_, hnR, hf⟩
              rcases List.mem_cons.mp hm with rfl | hm'
              · exact hnR hr
              · exact hnk hm'
      · cases hf : fetch hd with
        | rpcErr =>
          rw [show tickStep fetch R (known, pubs) hd = Except.ok (hd :: known, pubs) by
            simp [tickStep, hk, hr, hf]] at h
          rw [exceptOkBind] at h
          rw [ih _ _ _ _ h t]
          constructor
          · rintro (hp | ⟨htl, hnk, hnR, hff⟩)
            · exact Or.inl hp
            · exact Or.inr ⟨List.mem_cons_of_mem _ htl,
                fun hm => hnk (List.mem_cons_of_mem _ hm), hnR, hff⟩
          · rintro (hp | ⟨hc, hnk, hnR, hff⟩)
            · exact Or.inl hp
            · rcases List.mem_cons.mp hc with rfl | htl
              · rw [hf] at hff; cases hff
              · refine Or.inr ⟨htl, fun hm => ?_, hnR, hff⟩
                rcases List.mem_cons.mp hm with rfl | hm'
                · rw [hf] at hff; cases hff
                · exact hnk hm'
        | badHex =>
          rw [show tickStep fetch R (known, pubs) hd = Except.error () by
            simp [tickStep, hk, hr, hf]] at h
          cases h
        | badTx =>
          rw [show tickStep fetch R (known, pubs) hd = Except.ok (hd :: known, pubs) by
            simp [tickStep, hk, hr, hf]] at h
          rw [exceptOkBind] at h
          rw [ih _ _ _ _ h t]
          constructor
          · rintro (hp | ⟨htl, hnk, hnR, hff⟩)
            · exact Or.inl hp
            · exact Or.inr ⟨List.mem_cons_of_mem _ htl,
                fun hm => hnk (List.mem_cons_of_mem _ hm), hnR, hff⟩
          · rintro (hp | ⟨hc, hnk, hnR, hff⟩)
            · exact Or.inl hp
            · rcases List.mem_cons.mp hc with rfl | htl
              · rw [hf] at hff; cases hff
              · refine Or.inr ⟨htl, fun hm => ?_, hnR, hff⟩
                rcases List.mem_cons.mp hm with rfl | hm'
                · rw [hf] at hff; cases hff
                · exact hnk hm'
        | okTx =>
          rw [show tickStep fetch R (known, pubs) hd = Except.ok (hd :: known, pubs ++ [hd]) by
            simp [tickStep, hk, hr, hf]] at h
          rw [exceptOkBind] at h
          rw [ih _ _ _ _ h t]
          constructor
          · rintro (hp | ⟨htl, hnk, hnR, hff⟩)
            · rcases List.mem_append.mp hp with hp' | hp'
              · exact Or.inl hp'
              · rcases List.mem_singleton.mp hp' with rfl
                exact Or.inr ⟨List.mem_cons_self _ _, hk, hr, hf⟩
            · exact Or.inr ⟨List.mem_cons_of_mem _ htl,
                fun hm => hnk (List.mem_cons_of_mem _ hm), hnR, hff⟩
          · rintro (hp | ⟨hc, hnk, hnR, hff⟩)
            · exact Or.inl (List.mem_append.mpr (Or.inl hp))
            · rcases List.mem_cons.mp hc with rfl | htl
              · exact Or.inl (List.mem_append.mpr (Or.inr (List.mem_singleton.mpr rfl)))
              · by_cases hth : t = hd
                · subst hth
                  exact Or.inl (List.mem_append.mpr (Or.inr (List.mem_singleton.mpr rfl)))
                · refine Or.inr ⟨htl, fun hm => ?_, hnR, hff⟩
                  rcases List.mem_cons.mp hm with h' | hm'
                  · exact hth h'
                  · exact hnk hm'

theorem tickStep_known_char (fetch : String → RawFetch) (R : List String) :
    ∀ (current : List String) (known pubs known2 pubs2 : List String),
    current.foldlM (tickStep fetch R) (known, pubs) = Except.ok (known2, pubs2) →
    ∀ t : String, t ∈ known2 ↔ t ∈ known ∨ t ∈ current := by
  intro current
  induction current with
  | nil =>
    intro known pubs known2 pubs2 h t
    simp only [List.foldlM_nil] at h
    cases h
    simp
  | cons hd tl ih =>
    intro known pubs known2 pubs2 h t
    simp only [List.foldlM_cons] at h
    by_cases hk : hd ∈ known
    · rw [show tickStep fetch R (known, pubs) hd = Except.ok (known, pubs) by
        simp [tickStep, hk]] at h
      rw [exceptOkBind] at h
      rw [ih _ _ _ _ h t, List.mem_cons]
      constructor
      · rintro (h1 | h2)
        · exact Or.inl h1
        · exact Or.inr (Or.inr h2)
      · rintro (h1 | rfl | h2)
        · exact Or.inl h1
        · exact Or.inl hk
        · exact Or.inr h2
    · have step : (∃ pubs', tickStep fetch R (known, pubs) hd = Except.ok (hd :: known, pubs')) ∨
          tickStep fetch R (known, pubs) hd = Except.error () := by
        by_cases hr : hd ∈ R
        · exact Or.inl ⟨pubs, by simp [tickStep, hk, hr]⟩
        · cases hf : fetch hd with
          | rpcErr => exact Or.inl ⟨pubs, by simp [tickStep, hk, hr, hf]⟩
          | badHex => exact Or.inr (by simp [tickStep, hk, hr, hf])
          | badTx => exact Or.inl ⟨pubs, by simp [tickStep, hk, hr, hf]⟩
          | okTx => exact Or.inl ⟨pubs ++ [hd], by simp [tickStep, hk, hr, hf]⟩
      rcases step with ⟨pubs', hstep⟩ | hstep
      · rw [hstep] at h
        rw [exceptOkBind] at h
        rw [ih _ _ _ _ h t, List.mem_cons, List.mem_cons]
        tauto
      · rw [hstep] at h
        cases h

theorem monitorTick_pubs_char (fetch : String → RawFetch)
    (R known current known2 pubs : List String)
    (h : monitorTick fetch R known (some current) = Except.ok (known2, pubs)) (t : String) :
    t ∈ pubs ↔ t ∈ current ∧ t ∉ known ∧ t ∉ R ∧ fetch t = .okTx := by
  rw [show monitorTick fetch R known (some current) =
      monitorTickSnapshot fetch R known current from rfl] at h
  unfold monitorTickSnapshot at h
  cases hf : current.foldlM (tickStep fetch R) (known, ([] : List String)) with
  | error e => rw [hf] at h; cases h
  | ok s =>
    obtain ⟨known1, pubs1⟩ := s
    rw [hf] at h
    cases h
    have := tickStep_char fetch R current known [] known1 pubs hf t
    simpa using this

theorem monitorTick_known_char (fetch : String → RawFetch)
    (R known current known2 pubs : List String)
    (h : monitorTick fetch R known (some current) = Except.ok (known2, pubs)) (t : String) :
    t ∈ known2 ↔ t ∈ current := by
  rw [show monitorTick fetch R known (some current) =
      monitorTickSnapshot fetch R known current from rfl] at h
  unfold monitorTickSnapshot at h
  cases hf : current.foldlM (tickStep fetch R) (known, ([] : List String)) with
  | error e => rw [hf] at h; cases h
  | ok s =>
    obtain ⟨known1, pubs1⟩ := s
    rw [hf] at h
    cases h
    have hmem := tickStep_known_char fetch R current known [] known1 pubs hf t
    simp only [List.mem_filter, decide_eq_true_eq]
    constructor
    · rintro ⟨-, h2⟩; exact h2
    · intro hc; exact ⟨hmem.mpr (Or.inr hc), hc⟩

theorem handler_drop_of_any (relay_id : Nat) (submit : String → SubmitOutcome)
    (R : List String) (e : RemoteEvent)
    (h : e.tags.any (is_self_relay_tag relay_id) = true) :
    handle_remote_transaction relay_id submit R e = Except.ok (R, []) := by
  simp [handle_remote_transaction, h]

theorem handler_processed (relay_id : Nat) (submit : String → SubmitOutcome)
    (R : List String) (tags : List RTag) (tx_hex txid : String)
    (h : tags.any (is_self_relay_tag relay_id) = false) :
    handle_remote_transaction relay_id submit R
        ⟨tags, .fields (some tx_hex) (some txid)⟩ =
      Except.ok (txid :: R,
        ServerEffect.markRemote txid :: ServerEffect.submit tx_hex ::
          postSubmitEffects (submit tx_hex) txid) := by
  simp [handle_remote_transaction, h]

theorem is_self_relay_tag_true_iff (relay_id : Nat) (tg : RTag) :
    is_self_relay_tag relay_id tg = true ↔
      ∃ v rest, tg = RTag.generic "relay_id" (v :: rest) ∧ parseU16 v = some relay_id := by
  cases tg with
  | other => simp [is_self_relay_tag]
  | generic kind vals =>
    cases vals with
    | nil => simp [is_self_relay_tag]
    | cons v rest =>
      by_cases hk : kind = "relay_id"
      · subst hk
        cases hp : parseU16 v with
        | none =>
          simp only [is_self_relay_tag, hp, reduceIte]
          constructor
          · intro hfalse; cases hfalse
          · rintro ⟨v', rest', heq, hpv⟩
            rw [RTag.generic.injEq, List.cons.injEq] at heq
            obtain ⟨-, rfl, rfl⟩ := heq
            rw [hp] at hpv; cases hpv
        | some n =>
          simp only [is_self_relay_tag, hp, reduceIte, decide_eq_true_eq]
          constructor
          · rintro rfl; exact ⟨v, rest, rfl, hp⟩
          · rintro ⟨v', rest', heq, hpv⟩
            rw [RTag.generic.injEq, List.cons.injEq] at heq
            obtain ⟨-, rfl, rfl⟩ := heq
            rw [hp] at hpv
            exact Option.some.inj hpv
      · simp only [is_self_relay_tag, hk, reduceIte]
        constructor
        · intro hfalse; cases hfalse
        · rintro ⟨v', rest', heq, -⟩
          rw [RTag.generic.injEq] at heq
          exact absurd heq.1 hk

theorem any_self_tag_iff (relay_id : Nat) (tags : List RTag) :
    tags.any (is_self_relay_tag relay_id) = true ↔
      ∃ v rest, RTag.generic "relay_id" (v :: rest) ∈ tags ∧
        parseU16 v = some relay_id := by
  rw [List.any_eq_true]
  constructor
  · rintro ⟨tg, htg, hself⟩
    obtain ⟨v, rest, rfl, hp⟩ := (is_self_relay_tag_true_iff relay_id tg).mp hself
    exact ⟨v, rest, htg, hp⟩
  · rintro ⟨v, rest, hmem, hp⟩
    exact ⟨RTag.generic "relay_id" (v :: rest), hmem,
      (is_self_relay_tag_true_iff relay_id _).mpr ⟨v, rest, rfl, hp⟩⟩

/-- C2: an inbound Nostr event carrying a `relay_id` tag whose value
parses to the relay's own id is discarded before any side effect: the
remote origin set `R` is unchanged and no submission, response or
broadcast effect is produced. -/
theorem C2_self_event_no_side_effect (relay_id : Nat)
    (submit : String → SubmitOutcome) (R : List String) (e : RemoteEvent)
    (h : ∃ tg ∈ e.tags, is_self_relay_tag relay_id tg = true) :
    handle_remote_transaction relay_id submit R e = Except.ok (R, []) := by
  obtain ⟨tg, htg, hself⟩ := h
  exact handler_drop_of_any relay_id submit R e (List.any_eq_true.mpr ⟨tg, htg, hself⟩)

theorem C2_witness :
    handle_remote_transaction 1 (fun _ => SubmitOutcome.ok "x") ["p"]
      ⟨[RTag.generic "relay_id" ["1"]], ContentParse.malformed⟩ =
      Except.ok (["p"], []) :=
  C2_self_event_no_side_effect 1 (fun _ => SubmitOutcome.ok "x") ["p"]
    ⟨[RTag.generic "relay_id" ["1"]], ContentParse.malformed⟩
    ⟨RTag.generic "relay_id" ["1"], by decide, by decide⟩

/-- C3: within the ingress handling of a remote kind-20012 event that
carries both `hex` and `txid` fields, the insertion of the txid into `R`
(`markRemote`, effect index 0) strictly precedes the `sendrawtransaction`
submission (`submit`, effect index 1), and the txid is in the resulting
`R` whatever the submission outcome, failures included. -/
theorem C3_mark_remote_precedes_submit (relay_id : Nat)
    (submit : String → SubmitOutcome) (R : List String) (tags : List RTag)
    (tx_hex txid : String)
    (h : tags.any (is_self_relay_tag relay_id) = false) :
    handle_remote_transaction relay_id submit R
        ⟨tags, .fields (some tx_hex) (some txid)⟩ =
      Except.ok (txid :: R,
        ServerEffect.markRemote txid :: ServerEffect.submit tx_hex ::
          postSubmitEffects (submit tx_hex) txid) ∧
      txid ∈ txid :: R :=
  ⟨handler_processed relay_id submit R tags tx_hex txid h,
   List.mem_cons_self _ _⟩

theorem C3_witness :
    handle_remote_transaction 1 (fun _ => SubmitOutcome.err "boom") []
        ⟨[RTag.generic "relay_id" ["2"]], .fields (some "aa") (some "t")⟩ =
      Except.ok (["t"],
        [ServerEffect.markRemote "t", ServerEffect.submit "aa",
         ServerEffect.warnSubmitFailed "t" "boom"]) ∧
      "t" ∈ ["t"] :=
  C3_mark_remote_precedes_submit 1 (fun _ => SubmitOutcome.err "boom") []
    [RTag.generic "relay_id" ["2"]] "aa" "t" (by decide)

/-- C1 (amended): on a completed poll tick, a txid is broadcast as a
kind-20012 event iff it is new in the snapshot, not in the remote origin
set `R` at the time of the check, and its raw transaction was fetched
and decoded successfully; in particular no transaction that arrived via
Nostr (a member of `R`) is ever published outward. -/
theorem C1_broadcast_iff_new_local_fetched (fetch : String → RawFetch)
    (R known current known2 pubs : List String)
    (h : monitorTick fetch R known (some current) = Except.ok (known2, pubs)) :
    (∀ t, t ∈ pubs ↔ t ∈ current ∧ t ∉ known ∧ t ∉ R ∧ fetch t = .okTx) ∧
    (∀ t ∈ R, t ∉ pubs) := by
  refine ⟨fun t => monitorTick_pubs_char fetch R known current known2 pubs h t, ?_⟩
  intro t htR hmem
  exact ((monitorTick_pubs_char fetch R known current known2 pubs h t).mp hmem).2.2.1 htR

/-- C1 counterexample to the claim as stated: with a failing
`getrawtransaction` fetch, the new txid `a` is not in `R` yet nothing is
published, refuting the plain publish-iff-not-in-R biconditional. -/
theorem C1_counterexample :
    monitorTick (fun _ => RawFetch.rpcErr) [] [] (some ["a"]) =
      Except.ok (["a"], []) ∧
    ¬ (("a" ∈ ([] : List String)) ↔ "a" ∉ ([] : List String)) :=
  ⟨rfl, by simp⟩

theorem C1_witness :
    (("t1" ∈ (["t1"] : List String)) ↔
      ("t1" ∈ (["t1", "r"] : List String) ∧ "t1" ∉ ([] : List String) ∧
        "t1" ∉ (["r"] : List String) ∧ (fun _ => RawFetch.okTx) "t1" = RawFetch.okTx)) ∧
    ("r" ∉ (["t1"] : List String)) :=
  ⟨(C1_broadcast_iff_new_local_fetched (fun _ => RawFetch.okTx) ["r"] [] ["t1", "r"]
      ["r", "t1"] ["t1"] rfl).1 "t1",
   (C1_broadcast_iff_new_local_fetched (fun _ => RawFetch.okTx) ["r"] [] ["t1", "r"]
      ["r", "t1"] ["t1"] rfl).2 "r" (List.mem_singleton.mpr rfl)⟩

/-- C8: after a completed successful poll tick the known set `M` equals
exactly the snapshot returned by `getrawmempool` (evictions removed, all
snapshot txids present), and a failed poll leaves `M` unchanged and
publishes nothing. -/
theorem C8_known_set_matches_snapshot :
    (∀ (fetch : String → RawFetch) (R known current known2 pubs : List String),
       monitorTick fetch R known (some current) = Except.ok (known2, pubs) →
       ∀ t, t ∈ known2 ↔ t ∈ current) ∧
    (∀ (fetch : String → RawFetch) (R known : List String),
       monitorTick fetch R known none = Except.ok (known, [])) :=
  ⟨fun fetch R known current known2 pubs h t =>
     monitorTick_known_char fetch R known current known2 pubs h t,
   fun _ _ _ => rfl⟩

theorem C8_witness :
    (("z" ∈ (["z", "y"] : List String)) ↔ "z" ∈ (["y", "z"] : List String)) ∧
    monitorTick (fun _ => RawFetch.okTx) [] ["q"] none = Except.ok (["q"], []) :=
  ⟨C8_known_set_matches_snapshot.1 (fun _ => RawFetch.okTx) [] ["x", "y"] ["y", "z"]
      ["z", "y"] ["z"] rfl "z",
   C8_known_set_matches_snapshot.2 (fun _ => RawFetch.okTx) [] ["q"]⟩

/-- C6: on the Nostr ingress path, a submission error whose body
contains `already in mempool` or `already exists` leaves the engine in
exactly the state of a successful submission: same resulting `R` with
the txid kept, same effect list with no broadcast and no warning-level
failure handling. -/
theorem C6_already_present_equals_success (relay_id : Nat) (R : List String)
    (tags : List RTag) (tx_hex txid m s : String)
    (hself : tags.any (is_self_relay_tag relay_id) = false)
    (ha : isAlreadyPresentError m = true) :
    handle_remote_transaction relay_id (fun _ => SubmitOutcome.err m) R
        ⟨tags, .fields (some tx_hex) (some txid)⟩ =
      Except.ok (txid :: R,
        [ServerEffect.markRemote txid, ServerEffect.submit tx_hex]) ∧
    handle_remote_transaction relay_id (fun _ => SubmitOutcome.ok s) R
        ⟨tags, .fields (some tx_hex) (some txid)⟩ =
      Except.ok (txid :: R,
        [ServerEffect.markRemote txid, ServerEffect.submit tx_hex]) := by
  constructor
  · simp [handle_remote_transaction, hself, postSubmitEffects, ha]
  · simp [handle_remote_transaction, hself, postSubmitEffects]

theorem C6_witness :
    handle_remote_transaction 1 (fun _ => SubmitOutcome.err "already in mempool") []
        ⟨[RTag.generic "relay_id" ["2"]], .fields (some "aa") (some "t")⟩ =
      Except.ok (["t"], [ServerEffect.markRemote "t", ServerEffect.submit "aa"]) ∧
    handle_remote_transaction 1 (fun _ => SubmitOutcome.ok "t") []
        ⟨[RTag.generic "relay_id" ["2"]], .fields (some "aa") (some "t")⟩ =
      Except.ok (["t"], [ServerEffect.markRemote "t", ServerEffect.submit "aa"]) :=
  C6_already_present_equals_success 1 [] [RTag.generic "relay_id" ["2"]]
    "aa" "t" "already in mempool" "t" (by decide) (by decide)

/-- C7: for every inbound kind-20010 client submission, the handler
emits exactly one kind-20011 response carrying the success flag, message
and txid fields, and never emits a kind-20012 broadcast event on this
path, on success or failure. -/
theorem C7_single_response_no_broadcast (submit : String → SubmitOutcome)
    (deserTxid : List Nat → Option String) (content : String) :
    (∃ s msg t, handle_submit_tx submit deserTxid content =
      [ClientEffect.response s msg t]) ∧
    (∀ t, ClientEffect.broadcast t ∉ handle_submit_tx submit deserTxid content) := by
  have main : ∃ s msg t, handle_submit_tx submit deserTxid content =
      [ClientEffect.response s msg t] := by
    by_cases h0 : rustStrLen content.trim = 0 ∨ rustStrLen content.trim % 2 ≠ 0
    · refine ⟨false, "Invalid transaction hex format", "", ?_⟩
      unfold handle_submit_tx
      rw [if_pos h0]
    · cases hd : hexDecode content.trim with
      | none =>
        refine ⟨false, "Invalid hex encoding", "", ?_⟩
        unfold handle_submit_tx
        rw [if_neg h0]
        simp only [hd]
      | some tx_bytes =>
        cases hds : deserTxid tx_bytes with
        | none =>
          refine ⟨false, "Invalid transaction format", "", ?_⟩
          unfold handle_submit_tx
          rw [if_neg h0]
          simp only [hd, hds]
        | some txid =>
          cases hsub : submit content.trim with
          | ok s =>
            refine ⟨true, "Transaction accepted", txid, ?_⟩
            unfold handle_submit_tx
            rw [if_neg h0]
            simp only [hd, hds, hsub]
          | err m =>
            refine ⟨false, m, txid, ?_⟩
            unfold handle_submit_tx
            rw [if_neg h0]
            simp only [hd, hds, hsub]
  obtain ⟨s, msg, t, hmain⟩ := main
  refine ⟨⟨s, msg, t, hmain⟩, ?_⟩
  intro t' ht'
  rw [hmain] at ht'
  simp at ht'

/-- C9: an inbound kind-20012 event with `hex` and `txid` fields is
dropped as a self-event iff some `relay_id` tag value parses as a `u16`
equal to the relay's own id; when no tag parses that way (for example a
non-numeric value) the event is processed as remote: the txid is marked
in `R` and the transaction is submitted. -/
theorem C9_drop_iff_relay_id_parses (relay_id : Nat)
    (submit : String → SubmitOutcome) (R : List String) (tags : List RTag)
    (tx_hex txid : String) :
    (handle_remote_transaction relay_id submit R
        ⟨tags, .fields (some tx_hex) (some txid)⟩ = Except.ok (R, []) ↔
      ∃ v rest, RTag.generic "relay_id" (v :: rest) ∈ tags ∧
        parseU16 v = some relay_id) ∧
    ((¬ ∃ v rest, RTag.generic "relay_id" (v :: rest) ∈ tags ∧
        parseU16 v = some relay_id) →
      handle_remote_transaction relay_id submit R
          ⟨tags, .fields (some tx_hex) (some txid)⟩ =
        Except.ok (txid :: R,
          ServerEffect.markRemote txid :: ServerEffect.submit tx_hex ::
            postSubmitEffects (submit tx_hex) txid)) := by
  constructor
  · constructor
    · intro hdrop
      by_contra hne
      have hany : tags.any (is_self_relay_tag relay_id) = false :=
        Bool.eq_false_iff.mpr
          (fun htrue => hne ((any_self_tag_iff relay_id tags).mp htrue))
      rw [handler_processed relay_id submit R tags tx_hex txid hany] at hdrop
      have hpair := Except.ok.inj hdrop
      have h2 := congrArg Prod.snd hpair
      simp at h2
    · intro hex
      exact handler_drop_of_any relay_id submit R _
        ((any_self_tag_iff relay_id tags).mpr hex)
  · intro hne
    have hany : tags.any (is_self_relay_tag relay_id) = false :=
      Bool.eq_false_iff.mpr
        (fun htrue => hne ((any_self_tag_iff relay_id tags).mp htrue))
    exact handler_processed relay_id submit R tags tx_hex txid hany

theorem C9_witness :
    handle_remote_transaction 1 (fun _ => SubmitOutcome.err "boom") []
        ⟨[RTag.generic "relay_id" ["zzz"]], .fields (some "aa") (some "t")⟩ =
      Except.ok (["t"],
        [ServerEffect.markRemote "t", ServerEffect.submit "aa",
         ServerEffect.warnSubmitFailed "t" "boom"]) :=
  (C9_drop_iff_relay_id_parses 1 (fun _ => SubmitOutcome.err "boom") []
      [RTag.generic "relay_id" ["zzz"]] "aa" "t").2
    (by
      rintro ⟨v, rest, hmem, hp⟩
      rw [List.mem_singleton, RTag.generic.injEq, List.cons.injEq] at hmem
      obtain ⟨-, rfl, -⟩ := hmem
      exact absurd hp (by decide))

/-- C4 (amended): the `since` value of the strfry subscription filter is
sampled inside `try_connect_to_strfry` at each connection attempt, so
the sequence of filters sent by the reconnect loop carries exactly the
per-attempt timestamps, not one process-start constant. -/
theorem C4_since_per_attempt (attemptTimes : List Nat) :
    (reconnect_filters attemptTimes).map StrfryFilter.since = attemptTimes := by
  rw [reconnect_filters, List.map_map]
  have hcomp : StrfryFilter.since ∘ try_connect_subscription = fun t => t := by
    funext t; rfl
  rw [hcomp]
  exact List.map_id attemptTimes

/-- C4 counterexample to the claim as stated: a process that starts and
connects at time 0 and reconnects at time 5 sends `since` values 0 and
5, not the process-start value twice. -/
theorem C4_counterexample :
    ¬ ((reconnect_filters [0, 5]).map StrfryFilter.since = [0, 0]) := by decide

theorem rustStrLen_eq_zero_iff (s : String) : rustStrLen s = 0 ↔ s.toList = [] := by
  cases s with
  | mk data => simp [rustStrLen, String.toList]

theorem cacheCapacity_pos (cfg : ValidationConfig) : 0 < cacheCapacity cfg := by
  by_cases h : cfg.cache_size = 0
  · simp [cacheCapacity, h]
  · simp only [cacheCapacity, h, if_false]
    exact Nat.pos_of_ne_zero h

/-- C5 (amended): after a validate call that succeeded (and therefore
cached the txid), a second validate of the same transaction within the
TTL window returns `RecentlyProcessed` without issuing a second
`testmempoolaccept`; the guarantee is conditional on the first
validation succeeding. -/
theorem C5_cached_success_skips_core (cfg : ValidationConfig)
    (d : List Nat → Option String) (core : String → CoreOutcome)
    (cache c2 : TxCache) (n1 n2 : Nat) (tx_hex : String)
    (hen : cfg.enable_validation = true)
    (h1 : validate cfg d core cache n1 tx_hex = ⟨Except.ok (), c2, true⟩)
    (httl : n2 - n1 < cfg.cache_ttl_seconds) :
    (validate cfg d core c2 n2 tx_hex).calledCore = false ∧
    ∀ txid, extract_txid d tx_hex = Except.ok txid →
      (validate cfg d core c2 n2 tx_hex).result =
        Except.error (ValidationError.RecentlyProcessed txid) := by
  unfold validate at h1
  simp only [hen, Bool.not_true, Bool.false_eq_true, if_false] at h1
  cases hext : extract_txid d tx_hex with
  | error e => simp only [hext] at h1; simp at h1
  | ok txid =>
    simp only [hext] at h1
    by_cases hrec : is_recently_processed cfg cache n1 txid = true
    · rw [if_pos hrec] at h1; simp at h1
    · rw [if_neg hrec] at h1
      cases hpre : (if cfg.enable_precheck then quick_validation_checks tx_hex
          else Except.ok ()) with
      | error e => simp only [hpre] at h1; simp at h1
      | ok u =>
        simp only [hpre] at h1
        cases hcore : core tx_hex with
        | rpcFail => simp only [hcore] at h1; simp at h1
        | rejectedCore r => simp only [hcore] at h1; simp at h1
        | allowed =>
          simp only [hcore] at h1
          have hc2 : c2 = cache_transaction cfg cache n1 txid := by
            have hc := congrArg ValidateResult.cache h1
            exact hc.symm
          subst hc2
          have hrec2 : is_recently_processed cfg
              (cache_transaction cfg cache n1 txid) n2 txid = true := by
            unfold is_recently_processed cache_transaction
            obtain ⟨k, hk⟩ : ∃ k, cacheCapacity cfg = k + 1 :=
              ⟨cacheCapacity cfg - 1, by have := cacheCapacity_pos cfg; omega⟩
            rw [hk, List.take_succ_cons, List.find?_cons_of_pos]
            · exact decide_eq_true httl
            · simp
          constructor
          · simp [validate, hen, hext, hrec2]
          · intro txid2 htx2
            cases htx2
            simp [validate, hen, hext, hrec2]

set_option maxRecDepth 8000

/-- C5 counterexample to the claim as stated: a rejected validation does
not cache the txid, so an immediate second validate of the same
transaction (well within the 600 s TTL) issues `testmempoolaccept`
again. -/
theorem C5_counterexample :
    ((validate ValidationConfig.default (fun _ => some "t")
        (fun _ => CoreOutcome.rejectedCore "bad") [] 0
        (String.mk (List.replicate 120 'a'))).calledCore = true) ∧
    ((validate ValidationConfig.default (fun _ => some "t")
        (fun _ => CoreOutcome.rejectedCore "bad") [] 0
        (String.mk (List.replicate 120 'a'))).cache = []) ∧
    ((validate ValidationConfig.default (fun _ => some "t")
        (fun _ => CoreOutcome.rejectedCore "bad") [] 1
        (String.mk (List.replicate 120 'a'))).calledCore = true) ∧
    ((1 : Nat) - 0 < ValidationConfig.default.cache_ttl_seconds) :=
  ⟨rfl, rfl, rfl, by decide⟩

theorem C5_witness :
    ((validate ValidationConfig.default (fun _ => some "t")
        (fun _ => CoreOutcome.allowed) [("t", 0)] 1
        (String.mk (List.replicate 120 'a'))).calledCore = false) ∧
    ((validate ValidationConfig.default (fun _ => some "t")
        (fun _ => CoreOutcome.allowed) [("t", 0)] 1
        (String.mk (List.replicate 120 'a'))).result =
      Except.error (ValidationError.RecentlyProcessed "t")) :=
  ⟨(C5_cached_success_skips_core ValidationConfig.default (fun _ => some "t")
      (fun _ => CoreOutcome.allowed) [] [("t", 0)] 0 1
      (String.mk (List.replicate 120 'a')) rfl rfl (by decide)).1,
   (C5_cached_success_skips_core ValidationConfig.default (fun _ => some "t")
      (fun _ => CoreOutcome.allowed) [] [("t", 0)] 0 1
      (String.mk (List.replicate 120 'a')) rfl rfl (by decide)).2 "t" rfl⟩

/-- C10: with the deserializer failing on empty input (as the `bitcoin`
crate's does), `validate` never returns `EmptyTransaction` for any
input, and with validation enabled the empty string is rejected as
`InvalidStructure` because txid extraction runs before the pre-check
phase. -/
theorem C10_no_empty_transaction_error (cfg : ValidationConfig)
    (d : List Nat → Option String) (core : String → CoreOutcome)
    (cache : TxCache) (now : Nat) (tx_hex : String)
    (hd0 : d [] = none) :
    (validate cfg d core cache now tx_hex).result ≠
      Except.error ValidationError.EmptyTransaction ∧
    (cfg.enable_validation = true →
      (validate cfg d core cache now "").result =
        Except.error ValidationError.InvalidStructure) := by
  constructor
  · by_cases hen : cfg.enable_validation = true
    · unfold validate
      simp only [hen, Bool.not_true, Bool.false_eq_true, if_false]
      cases hext : extract_txid d tx_hex with
      | error e =>
        simp only [hext]
        unfold extract_txid at hext
        cases hhd : hexDecode tx_hex with
        | none => simp only [hhd] at hext; cases hext; simp
        | some bytes =>
          simp only [hhd] at hext
          cases hdd : d bytes with
          | none => simp only [hdd] at hext; cases hext; simp
          | some t => simp only [hdd] at hext; cases hext
      | ok txid =>
        simp only [hext]
        by_cases hrec : is_recently_processed cfg cache now txid = true
        · simp [hrec]
        · rw [Bool.not_eq_true] at hrec
          simp only [hrec, Bool.false_eq_true, if_false]
          cases hpre : (if cfg.enable_precheck then quick_validation_checks tx_hex
              else Except.ok ()) with
          | error e =>
            simp only [hpre]
            have hne : tx_hex.toList ≠ [] := by
              intro hl
              have hsome : hexDecode tx_hex = some [] := by
                unfold hexDecode; rw [hl]; rfl
              unfold extract_txid at hext
              simp only [hsome, hd0] at hext
              cases hext
            by_cases hpc : cfg.enable_precheck = true
            · rw [if_pos hpc] at hpre
              unfold quick_validation_checks at hpre
              rw [if_neg (fun h0 => hne ((rustStrLen_eq_zero_iff tx_hex).mp h0))] at hpre
              by_cases hall : (!tx_hex.toList.all is_ascii_hexdigit) = true
              · rw [if_pos hall] at hpre; cases hpre; simp
              · rw [if_neg hall] at hpre
                by_cases hsz : rustStrLen tx_hex / 2 < 60 ∨ rustStrLen tx_hex / 2 > 400000
                · rw [if_pos hsz] at hpre; cases hpre; simp
                · rw [if_neg hsz] at hpre; cases hpre
            · rw [if_neg hpc] at hpre; cases hpre
          | ok u =>
            simp only [hpre]
            cases hcore : core tx_hex with
            | rpcFail => simp [hcore]
            | rejectedCore r => simp [hcore]
            | allowed => simp [hcore]
    · unfold validate
      have hfalse : (!cfg.enable_validation) = true := by
        cases hb : cfg.enable_validation
        · rfl
        · exact absurd hb hen
      rw [if_pos hfalse]
      simp
  · intro hen
    unfold validate
    simp only [hen, Bool.not_true, Bool.false_eq_true, if_false]
    have hext : extract_txid d "" = Except.error ValidationError.InvalidStructure := by
      unfold extract_txid
      simp only [show hexDecode "" = some [] from rfl, hd0]
    simp [hext]

theorem C10_witness :
    ((validate ValidationConfig.default (fun _ => none) (fun _ => CoreOutcome.allowed)
        [] 0 "00").result ≠ Except.error ValidationError.EmptyTransaction) ∧
    ((validate ValidationConfig.default (fun _ => none) (fun _ => CoreOutcome.allowed)
        [] 0 "").result = Except.error ValidationError.InvalidStructure) :=
  ⟨(C10_no_empty_transaction_error ValidationConfig.default (fun _ => none)
      (fun _ => CoreOutcome.allowed) [] 0 "00" rfl).1,
   (C10_no_empty_transaction_error ValidationConfig.default (fun _ => none)
      (fun _ => CoreOutcome.allowed) [] 0 "00" rfl).2 rfl⟩

end TxRelay
